import Mathlib

/-!
# Verification of the kagent session/run persistence and invocation-dispatch path

This file gives a shallow embedding, in Lean 4, of the parts of the kagent
Go code base that the specification's testable properties talk about:

* the generic persistence service (`go/internal/database/service.go`):
  `List`/`Get`/`Create`/`Update`/`Delete` over equality filter clauses;
* the controller persistence service
  (`go/controller/internal/database/service.go`): `GetSession`,
  `DeleteSession`, `GetSessionRuns`, `GetMessagesForRun`, `CreateRun`,
  `UpdateRun`;
* the controller HTTP handlers
  (`go/controller/internal/httpserver/handlers/sessions_db.go`):
  `HandleCreateSessionDB` and `HandleSessionInvokeDB`;
* the teams HTTP handlers (`HandleCreateTeamDB` / `HandleGetTeamDB`);
* the A2A task handler produced by `makeHandlerForTeam`;
* the A2A GORM storage (`GormStorage.StoreMessage`).

The relational store is modelled in memory: tables are Lean lists of row
records, an insert appends a row and allocates the next auto-increment id,
`ORDER BY created_at` is insertion sort on the `createdAt` field, and the
SQL driver's outcome (success, or an injected driver fault) is an explicit
parameter where the Go code inspects the returned error.  External calls
(the autogen `InvokeSession` / `InvokeTask` RPCs) are opaque outcomes passed
to the handler as a parameter.  Handlers additionally return a trace of the
side effects they perform (row creation, the downstream call, row updates,
error logging) so that ordering and cardinality of effects can be stated.
-/

namespace Kagent

/-- A database value in a filter clause or a row column: kagent filters only
on string columns (`user_id`, `name`, ...) and integer columns (`id`,
`session_id`, ...). -/
inductive DBVal where
  | str (s : String)
  | nat (n : Nat)
deriving DecidableEq, Repr

/-- An equality filter clause, mirroring `database.Clause` in
`go/internal/database/service.go` (`Key`, `Value`, used as `key = ?`). -/
structure Clause where
  key : String
  value : DBVal
deriving DecidableEq, Repr

/-- A generic row for the generic service `Service[T]`: a list of named
columns plus the `created_at` timestamp used by `List`'s `ORDER BY`.
Rows are kept in primary-key order in the table list, so `First` (which
orders by primary key) is the head of the matching rows. -/
structure Row where
  fields : List (String × DBVal)
  createdAt : Nat
deriving DecidableEq, Repr

/-- Column lookup in a generic row. -/
def Row.getField (r : Row) (k : String) : Option DBVal :=
  (r.fields.find? (fun p => p.1 == k)).map Prod.snd

/-- `key = ?` on one row. -/
def rowMatches (r : Row) (c : Clause) : Bool :=
  r.getField c.key == some c.value

/-- Conjunction of all `WHERE key = ?` clauses, as chained by the Go loop
`for _, clause := range clauses { query = query.Where(...) }`. -/
def rowMatchesAll (cs : List Clause) (r : Row) : Bool :=
  cs.all (rowMatches r)

/-- An error returned by a persistence-service call.  `recordNotFound`
records whether `errors.Is(err, gorm.ErrRecordNotFound)` holds for the
wrapped error (wrapping with `fmt.Errorf("...: %w", err)` preserves it). -/
structure SvcError where
  message : String
  recordNotFound : Bool
deriving DecidableEq, Repr

/-- Outcome of the underlying SQL driver for one statement: either the
statement executes normally against the in-memory table, or the driver
fails with an error message (connection loss, constraint violation, ...). -/
inductive Driver where
  | normal
  | fail (e : String)
deriving DecidableEq, Repr

/-- `key b ≤ key a`: the ordering used for `ORDER BY created_at DESC`. -/
def keyDesc (key : α → Nat) (a b : α) : Prop := key b ≤ key a

/-- `key a ≤ key b`: the ordering used for `ORDER BY created_at ASC`. -/
def keyAsc (key : α → Nat) (a b : α) : Prop := key a ≤ key b

instance (key : α → Nat) : DecidableRel (keyDesc key) :=
  fun a b => Nat.decLe _ _

instance (key : α → Nat) : IsTotal α (keyDesc key) :=
  ⟨fun x y => Nat.le_total (key y) (key x)⟩

instance (key : α → Nat) : IsTrans α (keyDesc key) :=
  ⟨fun _ _ _ h1 h2 => Nat.le_trans h2 h1⟩

instance (key : α → Nat) : DecidableRel (keyAsc key) :=
  fun a b => Nat.decLe _ _

instance (key : α → Nat) : IsTotal α (keyAsc key) :=
  ⟨fun x y => Nat.le_total (key x) (key y)⟩

instance (key : α → Nat) : IsTrans α (keyAsc key) :=
  ⟨fun _ _ _ h1 h2 => Nat.le_trans h1 h2⟩

/-- `ORDER BY key DESC` (stable). -/
def orderByDescKey (key : α → Nat) (l : List α) : List α :=
  List.insertionSort (keyDesc key) l

/-- `ORDER BY key ASC` (stable). -/
def orderByAscKey (key : α → Nat) (l : List α) : List α :=
  List.insertionSort (keyAsc key) l

theorem orderByDescKey_sorted (key : α → Nat) (l : List α) :
    List.Sorted (keyDesc key) (orderByDescKey key l) :=
  List.sorted_insertionSort (keyDesc key) l

theorem orderByAscKey_sorted (key : α → Nat) (l : List α) :
    List.Sorted (keyAsc key) (orderByAscKey key l) :=
  List.sorted_insertionSort (keyAsc key) l

/-- `Service[T].List` (`go/internal/database/service.go`): apply all
equality clauses, `Order("created_at DESC")`, `Find`.  A driver failure is
wrapped as `failed to list models: <err>`. -/
def svcList (d : Driver) (cs : List Clause) (table : List Row) :
    Except SvcError (List Row) :=
  match d with
  | .fail e => .error ⟨"failed to list models: " ++ e, false⟩
  | .normal => .ok (orderByDescKey Row.createdAt (table.filter (rowMatchesAll cs)))

/-- `Service[T].Get` (`go/internal/database/service.go`): apply all equality
clauses and take `First`.  With zero matching rows GORM's `First` returns
`gorm.ErrRecordNotFound`, which the service wraps as
`failed to get model: <err>`; wrapping keeps `errors.Is(_, ErrRecordNotFound)`
true.  Any other driver failure is wrapped the same way. -/
def svcGet (d : Driver) (cs : List Clause) (table : List Row) :
    Except SvcError Row :=
  match d with
  | .fail e => .error ⟨"failed to get model: " ++ e, false⟩
  | .normal =>
    match (table.filter (rowMatchesAll cs)).head? with
    | none => .error ⟨"failed to get model: record not found", true⟩
    | some r => .ok r

/-- `Service[T].Delete` (`go/internal/database/service.go`): apply all
equality clauses and `Delete`.  The Go code checks only `result.Error`
(wrapped as `failed to delete model: <err>`); it never inspects
`result.RowsAffected`, so a delete that matches zero rows is a success. -/
def svcDelete (d : Driver) (cs : List Clause) (table : List Row) :
    Except SvcError (List Row) :=
  match d with
  | .fail e => .error ⟨"failed to delete model: " ++ e, false⟩
  | .normal => .ok (table.filter (fun r => ! rowMatchesAll cs r))

/-! ## Controller data model

Row records for the controller revision of the schema
(`go/internal/database/manager.go`, controller models section): `Session`
owns `Runs` with `constraint:OnDelete:CASCADE` on `SessionID`; `Run` owns
`MessageItems` with `constraint:OnDelete:CASCADE` on `RunID`; `Message`
references its session with `constraint:OnDelete:SET NULL`; `NewManager`
executes `PRAGMA foreign_keys = ON`.  However every one of these models
embeds `gorm.Model`, whose `DeletedAt` field makes GORM's `Delete` a *soft*
delete: it issues an `UPDATE ... SET deleted_at` (no code path uses
`Unscoped`), so no SQL `DELETE` ever runs against the session table and the
declared referential actions never fire.  The tables below model the rows
*visible to queries* (GORM filters `deleted_at IS NULL` everywhere), so a
soft delete removes the row from its table while child rows stay.
Auto-generated ids and `created_at` timestamps are modelled by a monotone
insertion counter. -/

/-- `database.RunStatus`: `created|active|complete|error|stopped`. -/
inductive RunStatus where
  | created
  | active
  | complete
  | error
  | stopped
deriving DecidableEq, Repr

/-- An opaque JSON object (`database.JSONMap`): keys mapped to their
serialized values. -/
def JsonMap := List (String × String)
deriving DecidableEq, Repr

instance : EmptyCollection JsonMap := ⟨([] : List (String × String))⟩

/-- A `database.Session` row (controller revision). -/
structure SessionRow where
  id : Nat
  userId : String
  name : Option String
  teamId : Option Nat
  createdAt : Nat
deriving DecidableEq, Repr

/-- A `database.Run` row (controller revision). -/
structure RunRow where
  id : Nat
  userId : String
  sessionId : Nat
  status : RunStatus
  task : JsonMap
  teamResult : JsonMap
  errorMessage : Option String
  createdAt : Nat
deriving DecidableEq, Repr

/-- A `database.Message` row (controller revision).  `sessionId` is an
option because its foreign key carries `OnDelete:SET NULL`. -/
structure MessageRow where
  id : Nat
  userId : String
  config : JsonMap
  sessionId : Option Nat
  runId : Nat
  createdAt : Nat
deriving DecidableEq, Repr

/-- The controller relational store: the three tables the session/run path
touches, plus the auto-increment/timestamp counter. -/
structure CtrlDB where
  sessions : List SessionRow
  runs : List RunRow
  messages : List MessageRow
  nextId : Nat
deriving DecidableEq, Repr

/-- `Service.GetSession` (`go/controller/internal/database/service.go`):
`WHERE id = ? AND user_id = ?` then `First`; `ErrRecordNotFound` becomes
the error `session not found`. -/
def getSession (sid : Nat) (uid : String) (db : CtrlDB) :
    Except SvcError SessionRow :=
  match (db.sessions.filter (fun s => s.id == sid && s.userId == uid)).head? with
  | none => .error ⟨"session not found", true⟩
  | some s => .ok s

/-- `Service.CreateRun`: `db.Create(run)` — insert the row, assigning the
next auto-increment id and timestamp. -/
def createRun (uid : String) (sid : Nat) (status : RunStatus) (task : JsonMap)
    (db : CtrlDB) : RunRow × CtrlDB :=
  let run : RunRow :=
    { id := db.nextId, userId := uid, sessionId := sid, status := status,
      task := task, teamResult := ∅, errorMessage := none,
      createdAt := db.nextId }
  (run, { db with runs := db.runs ++ [run], nextId := db.nextId + 1 })

/-- `Service.UpdateRun`: `db.Save(run)` — replace the row with the same
primary key. -/
def updateRun (r : RunRow) (db : CtrlDB) : CtrlDB :=
  { db with runs := db.runs.map (fun x => if x.id == r.id then r else x) }

/-- `Service.DeleteSession` (`go/controller/internal/database/service.go`):
`db.Where("id = ? AND user_id = ?", ...).Delete(&Session{})`.  `Session`
embeds `gorm.Model` and the call does not use `Unscoped`, so GORM performs
a soft delete — an `UPDATE ... SET deleted_at` on the matching live rows.
The matching session rows disappear from the visible table, but because no
SQL `DELETE` is issued the `OnDelete:CASCADE` constraints declared on
`Run.SessionID` and `Message.RunID` never fire: the session's `run` and
`message` rows are left untouched (and are not themselves soft-deleted).
The service then fails with `session not found` when
`result.RowsAffected == 0`. -/
def deleteSession (sid : Nat) (uid : String) (db : CtrlDB) :
    Except SvcError CtrlDB :=
  let gone := db.sessions.filter (fun s => s.id == sid && s.userId == uid)
  if gone.isEmpty then
    .error ⟨"session not found", false⟩
  else
    let kept := db.sessions.filter (fun s => ! (s.id == sid && s.userId == uid))
    .ok { db with sessions := kept }

/-- `Service.GetSessionRuns` (`go/controller/internal/database/service.go`):
first verify the session belongs to the user (`session not found or access
denied` otherwise), then `WHERE session_id = ?` with
`Order("created_at ASC")`. -/
def getSessionRuns (sid : Nat) (uid : String) (db : CtrlDB) :
    Except SvcError (List RunRow) :=
  match (db.sessions.filter (fun s => s.id == sid && s.userId == uid)).head? with
  | none => .error ⟨"session not found or access denied", true⟩
  | some _ =>
    .ok (orderByAscKey RunRow.createdAt
      (db.runs.filter (fun r => r.sessionId == sid)))

/-- `Service.GetMessagesForRun`
(`go/controller/internal/database/service.go`): `WHERE run_id = ?` with
`Order("created_at ASC")`. -/
def getMessagesForRun (rid : Nat) (db : CtrlDB) : List MessageRow :=
  orderByAscKey MessageRow.createdAt
    (db.messages.filter (fun m => m.runId == rid))

/-! ## HTTP handler layer

Handlers take the already-extracted request ingredients (`GetIntPathParam`,
`GetUserID` and `DecodeJSONBody` results are `Option`s: `none` is the error
case of the corresponding Go helper), the outcome of any external call, and
the store; they return the response written through `ErrorResponseWriter` /
`RespondWithJSON`, the resulting store, and a trace of the side effects
performed, in order. -/

/-- The response a handler writes: the uniform success envelope (payload
abstracted) or one of the error responses of
`httpserver/errors` (`NewBadRequestError`, `NewNotFoundError`,
`NewInternalServerError`), carrying the handler's message. -/
inductive HandlerResponse where
  | okJson
  | createdJson
  | badRequest (msg : String)
  | notFound (msg : String)
  | internalError (msg : String)
deriving DecidableEq, Repr

/-- One observable side effect of a handler, in program order. -/
inductive Effect where
  | effCreateSession (s : SessionRow)
  | effCreateRun (r : RunRow)
  | effInvoke (sessionId : Nat) (userId : String) (task : String)
  | effUpdateRun (r : RunRow)
  | effLogError (msg : String)
deriving DecidableEq, Repr

/-- `true` exactly on run-creation effects. -/
def Effect.isCreateRun : Effect → Bool
  | .effCreateRun _ => true
  | _ => false

/-- `true` exactly on session-creation effects. -/
def Effect.isCreateSession : Effect → Bool
  | .effCreateSession _ => true
  | _ => false

/-- `true` exactly on run-update effects. -/
def Effect.isUpdateRun : Effect → Bool
  | .effUpdateRun _ => true
  | _ => false

/-- `true` exactly on error-log effects. -/
def Effect.isLogError : Effect → Bool
  | .effLogError _ => true
  | _ => false

/-- What a handler execution produced. -/
structure HandlerOutcome where
  response : HandlerResponse
  db : CtrlDB
  trace : List Effect
deriving DecidableEq, Repr

/-- The decoded body of `POST /api/sessions`
(`handlers.SessionRequest` in sessions_db.go): `team_id`, `name`,
`user_id`, `team_state`. -/
structure SessionRequest where
  teamId : Option Nat
  name : Option String
  userId : String
  teamState : Option JsonMap
deriving DecidableEq, Repr

/-- `HandleCreateSessionDB`
(`go/controller/internal/httpserver/handlers/sessions_db.go`): decode the
body (bad request on failure), reject an empty `user_id` with the
bad-request error `user_id is required` before touching persistence, then
`Session.Create`. -/
def handleCreateSessionDB (body : Option SessionRequest) (db : CtrlDB) :
    HandlerOutcome :=
  match body with
  | none => ⟨.badRequest "Invalid request body", db, []⟩
  | some req =>
    if req.userId = "" then
      ⟨.badRequest "user_id is required", db, []⟩
    else
      let s : SessionRow :=
        { id := db.nextId, userId := req.userId, name := req.name,
          teamId := req.teamId, createdAt := db.nextId }
      ⟨.createdJson,
       { db with sessions := db.sessions ++ [s], nextId := db.nextId + 1 },
       [.effCreateSession s]⟩

/-- The decoded body of `POST /api/sessions/{sessionID}/invoke`
(`handlers.RunRequest`): the `task` string. -/
structure RunRequest where
  task : String
deriving DecidableEq, Repr

/-- Outcome of the external `AutogenClient.InvokeSession` RPC: a Go
`(result, err)` pair — an error (its `Error()` string), or a result
pointer that is either `nil` or carries the JSON serialization of the
result object. -/
inductive Downstream where
  | failure (errMsg : String)
  | success (result : Option JsonMap)
deriving DecidableEq, Repr

/-- The environment of one invoke-handler execution: the downstream RPC
outcome and the driver outcome of the `UpdateRun` write the handler issues
afterwards (`none` = the write succeeds, `some e` = it fails with `e`). -/
structure InvokeEnv where
  downstream : Downstream
  updateRunErr : Option String
deriving DecidableEq, Repr

/-- `HandleSessionInvokeDB`
(`go/controller/internal/httpserver/handlers/sessions_db.go`): parse the
path and user id and the body, look the session up, insert a `Run` row with
status `created` and task payload `{content: task, source: "user"}`, call
`InvokeSession`, then write the terminal status back onto the run.
In the failure branch the handler sets status `error` and `ErrorMessage`,
calls `UpdateRun` *discarding its error* (no log, no retry) and responds
with the internal error `Failed to invoke session`.  In the success branch
it sets status `complete`, copies the serialized result into `TeamResult`
when the result is non-nil, calls `UpdateRun` and only logs
`Failed to update run with results` when that write fails; the response is
the success envelope either way. -/
def handleSessionInvokeDB (sessionIdParam : Option Nat)
    (userIdParam : Option String) (body : Option RunRequest)
    (env : InvokeEnv) (db : CtrlDB) : HandlerOutcome :=
  match sessionIdParam with
  | none => ⟨.badRequest "Failed to get session ID from path", db, []⟩
  | some sid =>
  match userIdParam with
  | none => ⟨.badRequest "Failed to get user ID", db, []⟩
  | some uid =>
  match body with
  | none => ⟨.badRequest "Invalid request body", db, []⟩
  | some req =>
  match getSession sid uid db with
  | .error _ => ⟨.notFound "Session not found", db, []⟩
  | .ok session =>
    let (run, db1) := createRun uid session.id RunStatus.created
      [("content", req.task), ("source", "user")] db
    match env.downstream with
    | .failure e =>
      let run' : RunRow :=
        { run with status := RunStatus.error, errorMessage := some e }
      let db2 := if env.updateRunErr.isNone then updateRun run' db1 else db1
      ⟨.internalError "Failed to invoke session", db2,
       [.effCreateRun run, .effInvoke sid uid req.task, .effUpdateRun run']⟩
    | .success result =>
      let run' : RunRow :=
        match result with
        | some m => { run with status := RunStatus.complete, teamResult := m }
        | none => { run with status := RunStatus.complete }
      let db2 := if env.updateRunErr.isNone then updateRun run' db1 else db1
      let logs : List Effect :=
        match env.updateRunErr with
        | some _ => [.effLogError "Failed to update run with results"]
        | none => []
      ⟨.okJson, db2,
       [.effCreateRun run, .effInvoke sid uid req.task, .effUpdateRun run']
         ++ logs⟩

/-! ## Teams handlers

The teams revision: `database.Team` (`go/internal/database/manager.go`)
has `Name string` with `gorm:"unique;not null"` and an opaque JSON
`Component`.  The database client's `GetTeam(teamLabel)` resolves to the
generic `Team.Get(Clause{Key: "name", Value: teamLabel})` and `CreateTeam`
to `Team.Create`.  The component is kept opaque (its serialized JSON
text): GORM stores the serialization in a json column and returns it
unchanged, so store-then-load is the identity on the value. -/

/-- A `database.Team` row. -/
structure TeamRow where
  id : Nat
  name : String
  component : String
  createdAt : Nat
deriving DecidableEq, Repr

/-- The team table plus the auto-increment/timestamp counter. -/
structure TeamsDB where
  teams : List TeamRow
  nextId : Nat
deriving DecidableEq, Repr

/-- `GetTeam(teamLabel)`: `Team.Get(Clause{"name", teamLabel})` — `First`
over rows whose `name` equals the label, record-not-found on zero rows. -/
def getTeamByLabel (label : String) (st : TeamsDB) : Except SvcError TeamRow :=
  match (st.teams.filter (fun t => t.name == label)).head? with
  | none => .error ⟨"failed to get model: record not found", true⟩
  | some t => .ok t

/-- The decoded body of `POST /api/teams` (`handlers.TeamRequest`):
`agent_ref` and the opaque `component`. -/
structure TeamRequest where
  agentRef : String
  component : String
deriving DecidableEq, Repr

/-- A teams-handler response, carrying the returned team on success. -/
inductive TeamResponse where
  | okTeam (t : TeamRow)
  | createdTeam (t : TeamRow)
  | badRequest (msg : String)
  | notFound (msg : String)
  | internalError (msg : String)
deriving DecidableEq, Repr

/-- `HandleCreateTeamDB` (teams handler file): decode the body, then
`CreateTeam(&database.Team{Component: teamRequest.Component})`.  Note that
the handler logs `teamRequest.AgentRef` but does not copy it (or anything
else) into the `Name` field of the created row, so the row is stored with
the zero-value name `""`. -/
def handleCreateTeamDB (body : Option TeamRequest) (st : TeamsDB) :
    TeamResponse × TeamsDB :=
  match body with
  | none => (.badRequest "Invalid request body", st)
  | some req =>
    let t : TeamRow :=
      { id := st.nextId, name := "", component := req.component,
        createdAt := st.nextId }
    (.createdTeam t, { st with teams := st.teams ++ [t], nextId := st.nextId + 1 })

/-- `HandleGetTeamDB` (teams handler file): require a user id and the
`agent_name` / `agent_namespace` path parameters, then
`GetTeam(fmt.Sprintf("%s/%s", agentNamespace, agentName))`; any lookup
error becomes the not-found response `Team not found`. -/
def handleGetTeamDB (userIdParam : Option String)
    (agentName agentNamespace : Option String) (st : TeamsDB) : TeamResponse :=
  match userIdParam with
  | none => .badRequest "Failed to get user ID"
  | some _ =>
  match agentName with
  | none => .badRequest "Failed to get team ID from path"
  | some nm =>
  match agentNamespace with
  | none => .badRequest "Failed to get agent namespace from path"
  | some ns =>
  match getTeamByLabel (ns ++ "/" ++ nm) st with
  | .error _ => .notFound "Team not found"
  | .ok t => .okTeam t

/-! ## A2A task handler

`makeHandlerForTeam` (A2A translation file) returns a closure that calls
`autogenClient.InvokeTask` and post-processes the `(resp, err)` pair. -/

/-- `autogen_client.InvokeTaskResult`: `Message`, `Status` and the opaque
`Data` payload (kept as its JSON serialization, which is what the closure
returns after `json.Marshal(resp.Data)`). -/
structure InvokeTaskResult where
  message : String
  status : Bool
  data : String
deriving DecidableEq, Repr

/-- The closure returned by `makeHandlerForTeam`: on a transport error from
`InvokeTask` it executes `return "", nil` — the empty string with a *nil*
error; on `resp.Status == false` it returns the error
`failed to invoke task: <resp.Message>`; otherwise it returns the
serialized `resp.Data`. -/
def a2aTaskHandler (outcome : Except String InvokeTaskResult) :
    Except String String :=
  match outcome with
  | .error _ => .ok ""
  | .ok resp =>
    if !resp.status then .error ("failed to invoke task: " ++ resp.message)
    else .ok resp.data

/-! ## A2A GORM storage

`GormStorage.StoreMessage` (A2A manager storage file): one transaction
that inserts the message row (`MessageID` is `gorm:"unique;not null"`), and
when the message carries a `ContextID`, creates or updates the conversation
row, trimming the history to `maxHistoryLength` and deleting the trimmed
message rows inside the same transaction.  The whole function is the
transaction body: it either commits (returning the new store) or rolls
back (returning an error and leaving the store unchanged). -/

/-- A `StoredMessage` row. -/
structure StoredMsg where
  messageId : String
  contextId : Option String
  data : String
deriving DecidableEq, Repr

/-- A `StoredConversation` row: the context id and the decoded JSON array
of message ids. -/
structure Conversation where
  contextId : String
  messageIds : List String
deriving DecidableEq, Repr

/-- The A2A storage tables touched by `StoreMessage`. -/
structure A2AStore where
  messages : List StoredMsg
  convs : List Conversation
deriving DecidableEq, Repr

/-- `tx.Where("context_id = ?", contextID).First(&conversation)`. -/
def findConv (c : String) (st : A2AStore) : Option Conversation :=
  st.convs.find? (fun cv => cv.contextId == c)

/-- The message ids `StoreMessage` trims from the front of the history of
conversation `conv` when appending `mid`
(`removedMsgIDs := messageIDs[:len(messageIDs)-s.maxHistoryLength]`). -/
def trimmedIds (maxLen : Nat) (conv : Conversation) (mid : String) :
    List String :=
  let ids := conv.messageIds ++ [mid]
  if ids.length > maxLen then ids.take (ids.length - maxLen) else []

/-- `GormStorage.StoreMessage`: insert the message row (failing on a
duplicate `message_id`, which violates the unique constraint); if the
message has a context id, create the conversation when absent, otherwise
append the message id to the history, trim it to `maxHistoryLength` keeping
the most recent ids, delete the trimmed ids' message rows in the same
transaction, and save the conversation. -/
def storeMessage (maxLen : Nat) (m : StoredMsg) (st : A2AStore) :
    Except String A2AStore :=
  if st.messages.any (fun x => x.messageId == m.messageId) then
    .error "failed to store message: UNIQUE constraint failed"
  else
    let st1 : A2AStore := { st with messages := st.messages ++ [m] }
    match m.contextId with
    | none => .ok st1
    | some c =>
      match findConv c st1 with
      | none =>
        .ok { st1 with convs := st1.convs ++ [⟨c, [m.messageId]⟩] }
      | some conv =>
        let ids := conv.messageIds ++ [m.messageId]
        if ids.length > maxLen then
          let removed := ids.take (ids.length - maxLen)
          let kept := ids.drop (ids.length - maxLen)
          .ok { messages :=
                  st1.messages.filter (fun x => ! removed.contains x.messageId),
                convs := st1.convs.map (fun cv =>
                  if cv.contextId == c then { cv with messageIds := kept }
                  else cv) }
        else
          .ok { st1 with convs := st1.convs.map (fun cv =>
              if cv.contextId == c then { cv with messageIds := ids }
              else cv) }

/-- `HandleDeleteSessionDB` (sessions_db.go): user id, path parameter, then
`Session.Delete`; any delete failure is surfaced as the internal error
`Failed to delete session`. -/
def handleDeleteSessionDB (userIdParam : Option String)
    (sessionIdParam : Option Nat) (db : CtrlDB) : HandlerOutcome :=
  match userIdParam with
  | none => ⟨.badRequest "Failed to get user ID", db, []⟩
  | some uid =>
  match sessionIdParam with
  | none => ⟨.badRequest "Failed to get session ID from path", db, []⟩
  | some sid =>
  match deleteSession sid uid db with
  | .error _ => ⟨.internalError "Failed to delete session", db, []⟩
  | .ok db' => ⟨.okJson, db', []⟩

/-! ## Concrete fixtures used by the witnesses and counterexamples -/

/-- A session row owned by user `u`. -/
def exSession : SessionRow :=
  { id := 1, userId := "u", name := some "s", teamId := none, createdAt := 0 }

/-- A run in session 1 created at time 1. -/
def exRun1 : RunRow :=
  { id := 2, userId := "u", sessionId := 1, status := RunStatus.complete,
    task := [("content", "t1"), ("source", "user")], teamResult := ∅,
    errorMessage := none, createdAt := 1 }

/-- A later run in session 1 created at time 2. -/
def exRun2 : RunRow :=
  { id := 3, userId := "u", sessionId := 1, status := RunStatus.complete,
    task := [("content", "t2"), ("source", "user")], teamResult := ∅,
    errorMessage := none, createdAt := 2 }

/-- A message belonging to run 2 of session 1. -/
def exMessage : MessageRow :=
  { id := 4, userId := "u", config := ∅, sessionId := some 1, runId := 2,
    createdAt := 3 }

/-- A controller store holding the session, its two runs and one message. -/
def exDB : CtrlDB :=
  { sessions := [exSession], runs := [exRun1, exRun2],
    messages := [exMessage], nextId := 5 }

/-- A generic row with `id = 4`, not matching the clause `id = 5`. -/
def exRow : Row :=
  { fields := [("id", DBVal.nat 4), ("user_id", DBVal.str "u")], createdAt := 0 }

/-! ## Claims -/

/-- C10: the A2A task handler produced by `makeHandlerForTeam` returns the
empty result string with a nil error when the external `InvokeTask` call
itself fails, swallowing the transport error, while a response with
`Status == false` is propagated as an error. -/
theorem a2a_handler_swallows_transport_error :
    a2aTaskHandler (.error "dial tcp: connection refused") = .ok "" ∧
    a2aTaskHandler (.ok ⟨"boom", false, "null"⟩) =
      .error "failed to invoke task: boom" :=
  ⟨rfl, rfl⟩

/-- C6 (code evaluated at the failing input): `HandleCreateTeamDB` stores
the posted component in a row whose `Name` is the zero value `""` — the
request's `agent_ref` is never copied into the row — so the subsequent
`GET /api/teams/{agent_name}/{agent_namespace}` looks up
`"<namespace>/<name>"` by the `name` column, misses the created row, and
answers `Team not found` instead of returning the component. -/
theorem team_create_then_get_not_found :
    (handleCreateTeamDB (some ⟨"default/a", "COMPONENT_JSON"⟩)
        ⟨[], 0⟩).2.teams =
      [{ id := 0, name := "", component := "COMPONENT_JSON", createdAt := 0 }] ∧
    handleGetTeamDB (some "admin") (some "a") (some "default")
        (handleCreateTeamDB (some ⟨"default/a", "COMPONENT_JSON"⟩) ⟨[], 0⟩).2 =
      .notFound "Team not found" :=
  ⟨rfl, rfl⟩

/-- C4: `POST /api/sessions` with a body that decodes but carries an empty
`user_id` answers the bad-request error `user_id is required`, leaves the
store untouched and performs no persistence effect at all — in particular
no `Session.Create`. -/
theorem create_session_empty_user_bad_request
    (body : Option SessionRequest) (req : SessionRequest) (db : CtrlDB)
    (hb : body = some req) (hu : req.userId = "") :
    handleCreateSessionDB body db =
      ⟨.badRequest "user_id is required", db, []⟩ := by
  subst hb
  simp [handleCreateSessionDB, hu]

/-- C4 witness: the guard fires on the concrete empty-user request. -/
theorem create_session_empty_user_bad_request_witness :
    (some (⟨none, none, "", none⟩ : SessionRequest) =
        some (⟨none, none, "", none⟩ : SessionRequest)) ∧
    ((⟨none, none, "", none⟩ : SessionRequest).userId = "") ∧
    handleCreateSessionDB (some ⟨none, none, "", none⟩) exDB =
      ⟨.badRequest "user_id is required", exDB, []⟩ :=
  ⟨rfl, rfl,
    create_session_empty_user_bad_request _ ⟨none, none, "", none⟩ exDB rfl rfl⟩

/-- C3 counterexample: a generic `Service[T].Delete` whose clauses match
zero rows (the table's only row has `id = 4`, the clause demands `id = 5`)
returns success — the row set unchanged and no error — because the Go code
never checks `RowsAffected`; the claim says such a call returns a
not-found error. -/
theorem delete_zero_rows_succeeds :
    svcDelete .normal [⟨"id", DBVal.nat 5⟩] [exRow] = .ok [exRow] :=
  rfl

/-- C3 (amended): `Get` with zero matching rows fails with an error that is
`gorm.ErrRecordNotFound` under wrapping; the controller's `DeleteSession`
with zero matching rows fails with `session not found` and the handler
surfaces that as an internal error; but the generic `Delete` with zero
matching rows returns success, leaving the table unchanged.  Driver
failures are returned wrapped with the operation's context message. -/
theorem get_delete_zero_row_semantics :
    (∀ cs (table : List Row), (∀ r ∈ table, rowMatchesAll cs r = false) →
      svcGet .normal cs table =
        .error ⟨"failed to get model: record not found", true⟩) ∧
    (∀ cs (table : List Row), (∀ r ∈ table, rowMatchesAll cs r = false) →
      svcDelete .normal cs table = .ok table) ∧
    (∀ sid uid (db : CtrlDB),
      (∀ s ∈ db.sessions, ¬(s.id = sid ∧ s.userId = uid)) →
      deleteSession sid uid db = .error ⟨"session not found", false⟩) ∧
    (∀ sid uid (db : CtrlDB) err, deleteSession sid uid db = .error err →
      handleDeleteSessionDB (some uid) (some sid) db =
        ⟨.internalError "Failed to delete session", db, []⟩) ∧
    (∀ e cs (table : List Row),
      svcGet (.fail e) cs table =
          .error ⟨"failed to get model: " ++ e, false⟩ ∧
        svcDelete (.fail e) cs table =
          .error ⟨"failed to delete model: " ++ e, false⟩ ∧
        svcList (.fail e) cs table =
          .error ⟨"failed to list models: " ++ e, false⟩) := by
  refine ⟨?_, ?_, ?_, ?_, ?_⟩
  · intro cs table h
    have hf : table.filter (rowMatchesAll cs) = [] := by
      rw [List.filter_eq_nil_iff]
      intro a ha
      simp [h a ha]
    simp [svcGet, hf]
  · intro cs table h
    have hf : table.filter (fun r => ! rowMatchesAll cs r) = table := by
      rw [List.filter_eq_self]
      intro a ha
      simp [h a ha]
    simp [svcDelete, hf]
  · intro sid uid db h
    have hf : db.sessions.filter (fun s => s.id == sid && s.userId == uid)
        = [] := by
      rw [List.filter_eq_nil_iff]
      intro s hsm
      intro hb
      exact h s hsm (by simpa using hb)
    simp [deleteSession, hf]
  · intro sid uid db err h
    simp [handleDeleteSessionDB, h]
  · intro e cs table
    exact ⟨rfl, rfl, rfl⟩

/-- C3 witness: the semantics at concrete inputs — a `Get` missing every
row, a delete of a session that no row matches, and the handler response
to that failed delete. -/
theorem get_delete_zero_row_semantics_witness :
    svcGet .normal [⟨"id", DBVal.nat 5⟩] [exRow] =
        .error ⟨"failed to get model: record not found", true⟩ ∧
      deleteSession 9 "nobody" exDB =
        .error ⟨"session not found", false⟩ ∧
      handleDeleteSessionDB (some "nobody") (some 9) exDB =
        ⟨.internalError "Failed to delete session", exDB, []⟩ :=
  ⟨get_delete_zero_row_semantics.1 [⟨"id", DBVal.nat 5⟩] [exRow] (by decide),
   get_delete_zero_row_semantics.2.2.1 9 "nobody" exDB (by decide),
   get_delete_zero_row_semantics.2.2.2.1 9 "nobody" exDB
     ⟨"session not found", false⟩
     (get_delete_zero_row_semantics.2.2.1 9 "nobody" exDB (by decide))⟩

/-- C7 counterexample: `GetSessionRuns` — one of the row-listing operations
of the persistence layer, filtering on `session_id`/`user_id` equality —
returns the runs of session 1 ordered ascending by creation time: the
adjacent pair `(createdAt 1, createdAt 2)` violates the claimed
descending order. -/
theorem session_runs_ascending :
    getSessionRuns 1 "u" exDB = .ok [exRun1, exRun2] ∧
    ¬ List.Sorted (keyDesc RunRow.createdAt) [exRun1, exRun2] := by
  constructor
  · rfl
  · intro h
    have := List.rel_of_sorted_cons h exRun2 (by simp)
    simp [keyDesc, exRun1, exRun2] at this

/-- C7 (amended): the generic `Service[T].List` orders its result
descending by creation time, while the controller's `GetSessionRuns` and
`GetMessagesForRun` order theirs ascending by creation time. -/
theorem list_ordering_by_creation_time :
    (∀ d cs (table : List Row) out, svcList d cs table = .ok out →
      List.Sorted (keyDesc Row.createdAt) out) ∧
    (∀ sid uid (db : CtrlDB) out, getSessionRuns sid uid db = .ok out →
      List.Sorted (keyAsc RunRow.createdAt) out) ∧
    (∀ rid (db : CtrlDB), List.Sorted (keyAsc MessageRow.createdAt)
      (getMessagesForRun rid db)) := by
  refine ⟨?_, ?_, ?_⟩
  · intro d cs table out h
    cases d with
    | fail e => exact absurd h (by simp [svcList])
    | normal =>
      have : out = orderByDescKey Row.createdAt
          (table.filter (rowMatchesAll cs)) := by
        simpa [svcList] using h.symm
      rw [this]
      exact orderByDescKey_sorted _ _
  · intro sid uid db out h
    unfold getSessionRuns at h
    cases hh : (db.sessions.filter
        (fun s => s.id == sid && s.userId == uid)).head? with
    | none => rw [hh] at h; exact absurd h (by simp)
    | some s =>
      rw [hh] at h
      have : out = orderByAscKey RunRow.createdAt
          (db.runs.filter (fun r => r.sessionId == sid)) := by
        simpa using h.symm
      rw [this]
      exact orderByAscKey_sorted _ _
  · intro rid db
    exact orderByAscKey_sorted _ _

/-- C7 witness: the amended ordering at the concrete store — the generic
list is descending, the session-runs list ascending. -/
theorem list_ordering_by_creation_time_witness :
    List.Sorted (keyDesc Row.createdAt)
        ((svcList .normal [] [exRow]).toOption.getD []) ∧
      List.Sorted (keyAsc RunRow.createdAt) [exRun1, exRun2] :=
  ⟨list_ordering_by_creation_time.1 .normal [] [exRow] _ rfl,
   list_ordering_by_creation_time.2.1 1 "u" exDB [exRun1, exRun2] rfl⟩

/-! ## Reduction lemmas for the invoke handler -/

/-- The `Run` row `HandleSessionInvokeDB` inserts, and the store after the
insert, once the session lookup has returned `s`. -/
def invokeRun (uid : String) (s : SessionRow) (task : String) (db : CtrlDB) :
    RunRow :=
  (createRun uid s.id RunStatus.created
    [("content", task), ("source", "user")] db).1

/-- The store right after `HandleSessionInvokeDB`'s `CreateRun`. -/
def invokeDb1 (uid : String) (s : SessionRow) (task : String) (db : CtrlDB) :
    CtrlDB :=
  (createRun uid s.id RunStatus.created
    [("content", task), ("source", "user")] db).2

theorem invoke_reduce_failure (sid : Nat) (uid : String) (req : RunRequest)
    (e : String) (ue : Option String) (db : CtrlDB) (s : SessionRow)
    (hs : getSession sid uid db = .ok s) :
    handleSessionInvokeDB (some sid) (some uid) (some req) ⟨.failure e, ue⟩ db =
      ⟨.internalError "Failed to invoke session",
       (if ue.isNone
        then updateRun { invokeRun uid s req.task db with
                         status := RunStatus.error, errorMessage := some e }
          (invokeDb1 uid s req.task db)
        else invokeDb1 uid s req.task db),
       [.effCreateRun (invokeRun uid s req.task db),
        .effInvoke sid uid req.task,
        .effUpdateRun { invokeRun uid s req.task db with
                        status := RunStatus.error, errorMessage := some e }]⟩ := by
  simp only [handleSessionInvokeDB, hs, invokeRun, invokeDb1, createRun]

theorem invoke_reduce_success (sid : Nat) (uid : String) (req : RunRequest)
    (m : JsonMap) (ue : Option String) (db : CtrlDB) (s : SessionRow)
    (hs : getSession sid uid db = .ok s) :
    handleSessionInvokeDB (some sid) (some uid) (some req)
        ⟨.success (some m), ue⟩ db =
      ⟨.okJson,
       (if ue.isNone
        then updateRun { invokeRun uid s req.task db with
                         status := RunStatus.complete, teamResult := m }
          (invokeDb1 uid s req.task db)
        else invokeDb1 uid s req.task db),
       [.effCreateRun (invokeRun uid s req.task db),
        .effInvoke sid uid req.task,
        .effUpdateRun { invokeRun uid s req.task db with
                        status := RunStatus.complete, teamResult := m }] ++
         (match ue with
          | some _ => [.effLogError "Failed to update run with results"]
          | none => [])⟩ := by
  simp only [handleSessionInvokeDB, hs, invokeRun, invokeDb1, createRun]

theorem invoke_reduce_success_nil (sid : Nat) (uid : String)
    (req : RunRequest) (ue : Option String) (db : CtrlDB) (s : SessionRow)
    (hs : getSession sid uid db = .ok s) :
    handleSessionInvokeDB (some sid) (some uid) (some req)
        ⟨.success none, ue⟩ db =
      ⟨.okJson,
       (if ue.isNone
        then updateRun { invokeRun uid s req.task db with
                         status := RunStatus.complete }
          (invokeDb1 uid s req.task db)
        else invokeDb1 uid s req.task db),
       [.effCreateRun (invokeRun uid s req.task db),
        .effInvoke sid uid req.task,
        .effUpdateRun { invokeRun uid s req.task db with
                        status := RunStatus.complete }] ++
         (match ue with
          | some _ => [.effLogError "Failed to update run with results"]
          | none => [])⟩ := by
  simp only [handleSessionInvokeDB, hs, invokeRun, invokeDb1, createRun]

/-- `UpdateRun` (GORM `Save`) replaces in place and keeps the row count. -/
theorem updateRun_runs_length (r : RunRow) (db : CtrlDB) :
    (updateRun r db).runs.length = db.runs.length := by
  simp [updateRun]

/-- Saving a row whose primary key is that of the last inserted row leaves
it as the last row. -/
theorem runs_after_update (r r' : RunRow) (l : List RunRow)
    (h : r'.id = r.id) :
    ((l ++ [r]).map (fun x => if x.id == r'.id then r' else x)).getLast?
      = some r' := by
  have hm : (l ++ [r]).map (fun x => if x.id == r'.id then r' else x)
      = l.map (fun x => if x.id == r'.id then r' else x) ++ r' :: [] := by
    rw [List.map_append]
    simp [h]
  rw [hm, List.getLast?_append_cons]
  rfl

/-- The last run after `UpdateRun` on the freshly inserted run is the
updated row. -/
theorem updateRun_invokeDb1_getLast (uid : String) (s : SessionRow)
    (task : String) (db : CtrlDB) (r' : RunRow)
    (h : r'.id = (invokeRun uid s task db).id) :
    (updateRun r' (invokeDb1 uid s task db)).runs.getLast? = some r' := by
  simp only [updateRun, invokeDb1, createRun, invokeRun]
  exact runs_after_update _ r' _ h

/-- C1: once the path, user id and body have parsed and the session lookup
has succeeded, `HandleSessionInvokeDB` inserts exactly one new `Run` row —
with status `created` and the task payload
`{content: task, source: "user"}` — and the insertion precedes the external
`InvokeSession` call in the effect trace; this holds for every downstream
outcome (success, nil success and failure alike) and every outcome of the
later run update. -/
theorem invoke_creates_single_run_before_call
    (sid : Nat) (uid : String) (req : RunRequest) (env : InvokeEnv)
    (db : CtrlDB) (s : SessionRow)
    (hs : getSession sid uid db = .ok s) :
    ∃ rest,
      (handleSessionInvokeDB (some sid) (some uid) (some req) env db).trace =
          .effCreateRun (invokeRun uid s req.task db) ::
            .effInvoke sid uid req.task :: rest ∧
        (handleSessionInvokeDB (some sid) (some uid) (some req)
            env db).trace.filter Effect.isCreateRun =
          [.effCreateRun (invokeRun uid s req.task db)] ∧
        (invokeRun uid s req.task db).status = RunStatus.created ∧
        (invokeRun uid s req.task db).task =
          [("content", req.task), ("source", "user")] ∧
        (handleSessionInvokeDB (some sid) (some uid) (some req)
            env db).db.runs.length = db.runs.length + 1 := by
  obtain ⟨ds, ue⟩ := env
  cases ds with
  | failure e =>
    rw [invoke_reduce_failure sid uid req e ue db s hs]
    refine ⟨_, rfl, ?_, rfl, rfl, ?_⟩
    · simp [Effect.isCreateRun]
    · cases ue <;>
        simp [updateRun_runs_length, invokeDb1, createRun]
  | success r =>
    cases r with
    | some m =>
      rw [invoke_reduce_success sid uid req m ue db s hs]
      refine ⟨_, rfl, ?_, rfl, rfl, ?_⟩
      · cases ue <;> simp [Effect.isCreateRun]
      · cases ue <;>
          simp [updateRun_runs_length, invokeDb1, createRun]
    | none =>
      rw [invoke_reduce_success_nil sid uid req ue db s hs]
      refine ⟨_, rfl, ?_, rfl, rfl, ?_⟩
      · cases ue <;> simp [Effect.isCreateRun]
      · cases ue <;>
          simp [updateRun_runs_length, invokeDb1, createRun]

/-- C1 witness: the concrete invoke against `exDB` with a failing
downstream call. -/
theorem invoke_creates_single_run_before_call_witness :
    getSession 1 "u" exDB = .ok exSession ∧
      ∃ rest,
        (handleSessionInvokeDB (some 1) (some "u") (some ⟨"t"⟩)
            ⟨.failure "x", none⟩ exDB).trace =
            .effCreateRun (invokeRun "u" exSession "t" exDB) ::
              .effInvoke 1 "u" "t" :: rest ∧
          (handleSessionInvokeDB (some 1) (some "u") (some ⟨"t"⟩)
              ⟨.failure "x", none⟩ exDB).trace.filter Effect.isCreateRun =
            [.effCreateRun (invokeRun "u" exSession "t" exDB)] ∧
          (invokeRun "u" exSession "t" exDB).status = RunStatus.created ∧
          (invokeRun "u" exSession "t" exDB).task =
            [("content", "t"), ("source", "user")] ∧
          (handleSessionInvokeDB (some 1) (some "u") (some ⟨"t"⟩)
              ⟨.failure "x", none⟩ exDB).db.runs.length =
            exDB.runs.length + 1 :=
  ⟨rfl, invoke_creates_single_run_before_call 1 "u" ⟨"t"⟩
    ⟨.failure "x", none⟩ exDB exSession rfl⟩

/-- C2: when the run-update write goes through, a failing downstream call
leaves the new run with status `error` and its `ErrorMessage` set to the
(non-empty) error string, and a successful downstream call whose non-nil
result serializes to a non-empty JSON object leaves it with status
`complete` and that object as its non-empty `TeamResult`. -/
theorem invoke_terminal_run_status
    (sid : Nat) (uid : String) (req : RunRequest) (env : InvokeEnv)
    (db : CtrlDB) (s : SessionRow)
    (hs : getSession sid uid db = .ok s)
    (hupd : env.updateRunErr = none) :
    (∀ e, env.downstream = .failure e → e ≠ "" →
      ∃ run',
        (handleSessionInvokeDB (some sid) (some uid) (some req)
            env db).db.runs.getLast? = some run' ∧
          run'.status = RunStatus.error ∧
          ∃ msg, run'.errorMessage = some msg ∧ msg ≠ "") ∧
    (∀ m, env.downstream = .success (some m) → m ≠ (∅ : JsonMap) →
      ∃ run',
        (handleSessionInvokeDB (some sid) (some uid) (some req)
            env db).db.runs.getLast? = some run' ∧
          run'.status = RunStatus.complete ∧
          run'.teamResult = m ∧ run'.teamResult ≠ (∅ : JsonMap)) := by
  obtain ⟨ds, ue⟩ := env
  simp only at hupd
  subst hupd
  constructor
  · intro e hd he
    simp only at hd
    subst hd
    rw [invoke_reduce_failure sid uid req e none db s hs]
    refine ⟨{ invokeRun uid s req.task db with
              status := RunStatus.error, errorMessage := some e },
            ?_, rfl, e, rfl, he⟩
    simp only [Option.isNone_none, if_true]
    exact updateRun_invokeDb1_getLast uid s req.task db _ rfl
  · intro m hd hm
    simp only at hd
    subst hd
    rw [invoke_reduce_success sid uid req m none db s hs]
    refine ⟨{ invokeRun uid s req.task db with
              status := RunStatus.complete, teamResult := m },
            ?_, rfl, rfl, hm⟩
    simp only [Option.isNone_none, if_true]
    exact updateRun_invokeDb1_getLast uid s req.task db _ rfl

/-- C2 witness: the concrete invoke whose downstream call fails with
`boom` and whose run update succeeds. -/
theorem invoke_terminal_run_status_witness :
    getSession 1 "u" exDB = .ok exSession ∧
      ∃ run',
        (handleSessionInvokeDB (some 1) (some "u") (some ⟨"t"⟩)
            ⟨.failure "boom", none⟩ exDB).db.runs.getLast? = some run' ∧
          run'.status = RunStatus.error ∧
          ∃ msg, run'.errorMessage = some msg ∧ msg ≠ "" :=
  ⟨rfl,
   (invoke_terminal_run_status 1 "u" ⟨"t"⟩ ⟨.failure "boom", none⟩ exDB
      exSession rfl rfl).1 "boom" rfl (by decide)⟩

/-- C8 counterexample: downstream fails, the subsequent `UpdateRun` write
also fails (`disk full`), yet the handler logs nothing — the update error
is silently discarded (the success-branch log message never appears), the
run row keeps status `created`, and the caller still gets the internal
error for the downstream failure.  The claim's "is logged" does not hold. -/
theorem invoke_update_error_unlogged :
    (handleSessionInvokeDB (some 1) (some "u") (some ⟨"t"⟩)
        ⟨.failure "boom", some "disk full"⟩ exDB).response =
        .internalError "Failed to invoke session" ∧
      (handleSessionInvokeDB (some 1) (some "u") (some ⟨"t"⟩)
          ⟨.failure "boom", some "disk full"⟩ exDB).trace.filter
        Effect.isLogError = [] ∧
      (handleSessionInvokeDB (some 1) (some "u") (some ⟨"t"⟩)
          ⟨.failure "boom", some "disk full"⟩ exDB).db.runs.getLast? =
        some (invokeRun "u" exSession "t" exDB) :=
  ⟨rfl, rfl, rfl⟩

/-- C8 (amended): when the downstream call fails, whatever the outcome of
the `Run`-status write, the handler discards the write's error without
logging it, performs exactly one update attempt (no retry), and responds
with the same internal-server-error for the downstream failure. -/
theorem invoke_downstream_failure_best_effort
    (sid : Nat) (uid : String) (req : RunRequest) (db : CtrlDB)
    (s : SessionRow) (e : String) (uerr : Option String)
    (hs : getSession sid uid db = .ok s) :
    (handleSessionInvokeDB (some sid) (some uid) (some req)
        ⟨.failure e, uerr⟩ db).response =
        .internalError "Failed to invoke session" ∧
      ((handleSessionInvokeDB (some sid) (some uid) (some req)
          ⟨.failure e, uerr⟩ db).trace.filter Effect.isUpdateRun).length
        = 1 ∧
      (handleSessionInvokeDB (some sid) (some uid) (some req)
          ⟨.failure e, uerr⟩ db).trace.filter Effect.isLogError = [] := by
  rw [invoke_reduce_failure sid uid req e uerr db s hs]
  refine ⟨rfl, ?_, ?_⟩ <;> simp [Effect.isUpdateRun, Effect.isLogError]

/-- A `GetSessionRuns` against a store holding no session of that id and
user answers the not-found error. -/
theorem getSessionRuns_not_found (sid : Nat) (uid : String) (db : CtrlDB)
    (h : db.sessions.filter (fun s => s.id == sid && s.userId == uid) = []) :
    getSessionRuns sid uid db =
      .error ⟨"session not found or access denied", true⟩ := by
  unfold getSessionRuns
  rw [h]
  rfl

/-- The store left behind by soft-deleting session 1 from `exDB`: only the
session row disappears from the visible table; the runs and the message
remain. -/
def exDBAfterSoftDelete : CtrlDB :=
  { sessions := [], runs := [exRun1, exRun2], messages := [exMessage],
    nextId := 5 }

/-- C5 counterexample: deleting session 1 of the concrete store succeeds,
yet both of the session's `Run` rows and their `Message` row remain live
afterwards — GORM's soft delete touches only the session row, so the
claimed cascade removal of the Runs and their Messages does not happen. -/
theorem delete_session_runs_remain :
    deleteSession 1 "u" exDB = .ok exDBAfterSoftDelete ∧
      exDBAfterSoftDelete.runs = [exRun1, exRun2] ∧
      exRun1.sessionId = 1 ∧ exRun2.sessionId = 1 ∧
      exDBAfterSoftDelete.messages = [exMessage] ∧
      exMessage.runId = exRun1.id :=
  ⟨rfl, rfl, rfl, rfl, rfl, rfl⟩

/-- C5 (amended): a successful `DeleteSession` soft-deletes only the
matching session rows — the session's `Run` and `Message` rows remain
exactly as they were, the declared cascades never firing — but listing
runs for the deleted session afterwards still answers not-found, because
the session no longer passes `GetSessionRuns`'s ownership check. -/
theorem delete_session_soft_semantics (sid : Nat) (uid : String)
    (db db' : CtrlDB) (h : deleteSession sid uid db = .ok db') :
    db'.runs = db.runs ∧
      db'.messages = db.messages ∧
      getSessionRuns sid uid db' =
        .error ⟨"session not found or access denied", true⟩ := by
  simp only [deleteSession] at h
  by_cases hg : (db.sessions.filter
      (fun s => s.id == sid && s.userId == uid)).isEmpty
  · rw [if_pos hg] at h
    exact absurd h (by simp)
  · rw [if_neg hg] at h
    injection h with h
    subst h
    refine ⟨rfl, rfl, ?_⟩
    refine getSessionRuns_not_found sid uid _ ?_
    rw [List.filter_eq_nil_iff]
    intro a ha
    have := (List.mem_filter.mp ha).2
    simp only [Bool.not_eq_true'] at this
    simp [this]

/-- C5 witness: the amended soft-delete semantics at the concrete store —
runs and messages untouched, the runs listing answering not-found. -/
theorem delete_session_soft_semantics_witness :
    deleteSession 1 "u" exDB = .ok exDBAfterSoftDelete ∧
      exDBAfterSoftDelete.runs = exDB.runs ∧
      exDBAfterSoftDelete.messages = exDB.messages ∧
      getSessionRuns 1 "u" exDBAfterSoftDelete =
        .error ⟨"session not found or access denied", true⟩ :=
  ⟨rfl, delete_session_soft_semantics 1 "u" exDB exDBAfterSoftDelete rfl⟩

/-- The store committed by `StoreMessage`'s trimming branch. -/
def storeTrimResult (maxLen : Nat) (m : StoredMsg) (st : A2AStore)
    (conv : Conversation) (c : String) : A2AStore :=
  { messages :=
      (st.messages ++ [m]).filter (fun x =>
        ! ((conv.messageIds ++ [m.messageId]).take
            ((conv.messageIds ++ [m.messageId]).length - maxLen)).contains
              x.messageId),
    convs :=
      st.convs.map (fun cv =>
        if cv.contextId == c then
          { cv with
            messageIds :=
              (conv.messageIds ++ [m.messageId]).drop
                ((conv.messageIds ++ [m.messageId]).length - maxLen) }
        else cv) }

/-- The store committed by `StoreMessage`'s no-trim branch. -/
def storeNoTrimResult (m : StoredMsg) (st : A2AStore)
    (conv : Conversation) (c : String) : A2AStore :=
  { messages := st.messages ++ [m],
    convs :=
      st.convs.map (fun cv =>
        if cv.contextId == c then
          { cv with messageIds := conv.messageIds ++ [m.messageId] }
        else cv) }

/-- C9: a successful `StoreMessage` whose message carries the context id of
an existing conversation leaves that conversation's stored history with at
most `maxHistoryLength` message ids, and every id trimmed from the front of
the history has its message row deleted in the same transaction (the one
resulting store). -/
theorem store_message_trims_history (maxLen : Nat) (m : StoredMsg)
    (st : A2AStore) (c : String) (conv : Conversation)
    (hctx : m.contextId = some c)
    (hconv : findConv c st = some conv)
    (hfresh : ∀ x ∈ st.messages, x.messageId ≠ m.messageId) :
    ∃ st', storeMessage maxLen m st = .ok st' ∧
      (∀ cv ∈ st'.convs, cv.contextId = c →
        cv.messageIds.length ≤ maxLen) ∧
      (∀ x ∈ trimmedIds maxLen conv m.messageId, ∀ msg ∈ st'.messages,
        msg.messageId ≠ x) := by
  have hdup : st.messages.any (fun x => x.messageId == m.messageId)
      = false := by
    rw [List.any_eq_false]
    intro x hx
    simp [hfresh x hx]
  have hconv1 : findConv c { st with messages := st.messages ++ [m] }
      = some conv := hconv
  by_cases hlen : (conv.messageIds ++ [m.messageId]).length > maxLen
  · refine ⟨storeTrimResult maxLen m st conv c, ?_, ?_, ?_⟩
    · simp only [storeMessage, hdup, Bool.false_eq_true, if_false, hctx,
        hconv1, if_pos hlen, storeTrimResult]
    · intro cv hcv hcvc
      obtain ⟨cv0, _, hcve⟩ := List.mem_map.mp hcv
      by_cases hc0 : cv0.contextId == c
      · rw [if_pos hc0] at hcve
        subst hcve
        simp only [List.length_drop]
        omega
      · rw [if_neg hc0] at hcve
        subst hcve
        exact absurd (by simp [hcvc]) hc0
    · intro x hx msg hmsg heq
      simp only [trimmedIds, if_pos hlen] at hx
      have hmf := (List.mem_filter.mp hmsg).2
      simp only [Bool.not_eq_true'] at hmf
      have : ((conv.messageIds ++ [m.messageId]).take
          ((conv.messageIds ++ [m.messageId]).length - maxLen)).contains
            msg.messageId = true := by
        rw [List.contains_iff_exists_mem_beq]
        exact ⟨x, hx, by rw [heq]; exact beq_self_eq_true x⟩
      rw [hmf] at this
      exact Bool.noConfusion this
  · refine ⟨storeNoTrimResult m st conv c, ?_, ?_, ?_⟩
    · simp only [storeMessage, hdup, Bool.false_eq_true, if_false, hctx,
        hconv1, if_neg hlen, storeNoTrimResult]
    · intro cv hcv hcvc
      obtain ⟨cv0, _, hcve⟩ := List.mem_map.mp hcv
      by_cases hc0 : cv0.contextId == c
      · rw [if_pos hc0] at hcve
        subst hcve
        simpa using Nat.le_of_not_lt hlen
      · rw [if_neg hc0] at hcve
        subst hcve
        exact absurd (by simp [hcvc]) hc0
    · intro x hx
      simp only [trimmedIds, if_neg hlen] at hx
      exact absurd hx (List.not_mem_nil x)

/-- The conversation used by the C9 witness: context `c`, history
`["a", "b"]`. -/
def exConv : Conversation := { contextId := "c", messageIds := ["a", "b"] }

/-- The storage state used by the C9 witness. -/
def exStore : A2AStore :=
  { messages := [⟨"a", some "c", "da"⟩, ⟨"b", some "c", "db"⟩],
    convs := [exConv] }

/-- The message stored by the C9 witness. -/
def exMsg : StoredMsg := { messageId := "d", contextId := some "c", data := "dd" }

/-- C9 witness: storing a third message into the two-element history with
`maxHistoryLength = 2` trims the oldest id and deletes its row. -/
theorem store_message_trims_history_witness :
    exMsg.contextId = some "c" ∧
      findConv "c" exStore = some exConv ∧
      ∃ st', storeMessage 2 exMsg exStore = .ok st' ∧
        (∀ cv ∈ st'.convs, cv.contextId = "c" →
          cv.messageIds.length ≤ 2) ∧
        (∀ x ∈ trimmedIds 2 exConv exMsg.messageId, ∀ msg ∈ st'.messages,
          msg.messageId ≠ x) :=
  ⟨rfl, rfl, store_message_trims_history 2 exMsg exStore "c" exConv rfl rfl
    (by decide)⟩

/-- C8 witness: the amended best-effort behaviour at the concrete store,
with a failing update write. -/
theorem invoke_downstream_failure_best_effort_witness :
    getSession 1 "u" exDB = .ok exSession ∧
      (handleSessionInvokeDB (some 1) (some "u") (some ⟨"t"⟩)
          ⟨.failure "boom", some "disk full"⟩ exDB).response =
        .internalError "Failed to invoke session" ∧
      ((handleSessionInvokeDB (some 1) (some "u") (some ⟨"t"⟩)
          ⟨.failure "boom", some "disk full"⟩ exDB).trace.filter
        Effect.isUpdateRun).length = 1 ∧
      (handleSessionInvokeDB (some 1) (some "u") (some ⟨"t"⟩)
          ⟨.failure "boom", some "disk full"⟩ exDB).trace.filter
        Effect.isLogError = [] :=
  ⟨rfl, invoke_downstream_failure_best_effort 1 "u" ⟨"t"⟩ exDB exSession
    "boom" (some "disk full") rfl⟩

end Kagent
